import Mathlib

/-!
Shallow embedding of the Minecraft status-query worker (`src/index.js`).

Byte buffers (`Uint8Array`) are `List Nat` whose elements are byte values;
JavaScript numbers flowing through the 32-bit bitwise operators are modelled
as the `Nat` bit pattern of their uint32 coercion, converted back to a signed
`Int` (`toInt32`) exactly where the source returns the result of a signed
operator (`|`).
-/

namespace MCStatus

/-- JS `buffer[i]` on a `Uint8Array`: an out-of-range read yields `undefined`,
which every bitwise operator in `readVarInt` coerces to `0`. -/
def jsByte (buffer : List Nat) (i : Nat) : Nat :=
  buffer.getD i 0

/-- Reinterpret a bit pattern's low 32 bits as a signed JS int32 — the type of
the result of the `|` operator that accumulates `value` in `readVarInt`. -/
def toInt32 (n : Nat) : Int :=
  if n % 2 ^ 32 < 2 ^ 31 then (n % 2 ^ 32 : Int) else (n % 2 ^ 32 : Int) - 2 ^ 32

/-- Loop of `createVarInt` (src/index.js:6-16), acting on the uint32 pattern of
`value`. The JS guard `(value & 0xffffff80) === 0` holds iff the pattern is
below 128; `value & 0x7f | 0x80` is `value % 128 + 128` (the two operands have
disjoint bits); `value >>>= 7` is division by 128 on the uint32 pattern. -/
def createVarIntAux (value : Nat) : List Nat :=
  if h : value < 128 then [value]
  else (value % 128 + 128) :: createVarIntAux (value / 128)
termination_by value
decreasing_by exact Nat.div_lt_self (by omega) (by omega)

/-- `createVarInt` (src/index.js:6-16). The first JS bitwise operation coerces
`value` to its 32-bit pattern, so the loop runs on `value mod 2^32`; every
caller in the source passes either a small non-negative count or `-1`. -/
def createVarInt (value : Int) : List Nat :=
  createVarIntAux ((value % (2 ^ 32 : Int)).toNat)

/-- Outcome of `readVarInt`: a decoded `[value, offset]` pair, or the thrown
`Error` with its message. -/
inductive ReadVarIntResult where
  | ok (value : Int) (offset : Nat)
  | err (msg : String)
deriving DecidableEq, Repr

/-- The do-while loop of `readVarInt` (src/index.js:28-40). Each iteration
reads `buffer[offset++]`, ORs `(byte & 0x7f) << (size++ * 7)` into `value`
(JS shifts take the count mod 32 and truncate to 32 bits), throws
`'VarInt is too big'` once `size` exceeds 5, and continues while `byte & 0x80`
is non-zero. On the throwing sixth iteration the preceding `value` update is
dead, so the size check is tested first here. -/
def readVarIntAux (buffer : List Nat) (offset size value : Nat) : ReadVarIntResult :=
  let byte := jsByte buffer offset
  let value2 := value ||| ((byte &&& 0x7f) <<< (size * 7 % 32) % 2 ^ 32)
  if h : size + 1 > 5 then .err "VarInt is too big"
  else if (byte &&& 0x80) ≠ 0 then
    readVarIntAux buffer (offset + 1) (size + 1) value2
  else .ok (toInt32 value2) (offset + 1)
termination_by 5 - size
decreasing_by omega

/-- `readVarInt` (src/index.js:28-40). -/
def readVarInt (buffer : List Nat) (offset : Nat) : ReadVarIntResult :=
  readVarIntAux buffer offset 0 0

/-- `createPacket` (src/index.js:18-26): length prefix, id prefix, payload. -/
def createPacket (id : Int) (data : List Nat) : List Nat :=
  let idBuffer := createVarInt id
  let lengthBuffer := createVarInt (idBuffer.length + data.length)
  lengthBuffer ++ idBuffer ++ data

/-- Clamp one argument of JS `slice` to an index into a buffer of length
`len`: negative arguments count from the end, and both ends are clamped. -/
def jsSliceClamp (len : Nat) (i : Int) : Nat :=
  if i < 0 then ((len : Int) + i).toNat else min i.toNat len

/-- JS `buffer.slice(a, b)`: the elements from index `a` (inclusive) to `b`
(exclusive) after clamping. -/
def jsSlice (buffer : List Nat) (a b : Int) : List Nat :=
  (buffer.take (jsSliceClamp buffer.length b)).drop (jsSliceClamp buffer.length a)

/-- Outcome of one iteration of the packet-scanning loop of `readResponse`
(src/index.js:168-199): `incomplete` is the `break` (including a caught
`readVarInt` throw) that waits for more bytes; `status` carries the JSON
payload slice and the next scan offset (the orchestrator then parses the JSON
— a parse failure breaks out like `incomplete` — and sends the ping; no claim
depends on that continuation); `pong` is the `return serverInfo` path; `skip`
consumes an unrecognized packet and continues at the next offset. -/
inductive ParseStep where
  | incomplete
  | status (jsonBytes : List Nat) (nextOffset : Int)
  | pong
  | skip (nextOffset : Int)
deriving DecidableEq, Repr

/-- The body of the inner `while` loop of `readResponse` (src/index.js:168-199):
decode the length VarInt, break if the whole packet is not yet buffered,
decode the packet id, and dispatch on it. Arithmetic on decoded values is JS
number arithmetic, hence `Int` (a decoded value can be negative). -/
def parseStep (buffer : List Nat) (offset : Nat) : ParseStep :=
  match readVarInt buffer offset with
  | .err _ => .incomplete
  | .ok length newOffset =>
    if (buffer.length : Int) < (newOffset : Int) + length then .incomplete
    else
      match readVarInt buffer newOffset with
      | .err _ => .incomplete
      | .ok packetId dataOffset =>
        if packetId = 0 then
          match readVarInt buffer dataOffset with
          | .err _ => .incomplete
          | .ok jsonLength jsonOffset =>
            .status (jsSlice buffer (jsonOffset : Int) ((jsonOffset : Int) + jsonLength))
                    ((newOffset : Int) + length)
        else if packetId = 1 then .pong
        else .skip ((newOffset : Int) + length)

/-- The recursive chat value fed to `extractText` (src/index.js:42-81): either
a plain string or an object with the optional fields the function reads. -/
inductive ChatComponent where
  | str (s : String)
  | node (color : Option String) (bold italic underlined strikethrough obfuscated : Bool)
         (text : Option String) (extra : Option (List ChatComponent))

/-- JS truthiness of an optional string field (`undefined` and `""` are
falsy). -/
def truthyStr : Option String → Bool
  | some s => !s.isEmpty
  | none => false

/-- The `colorCodes` table of `getColorCode` (src/index.js:88-93). -/
def colorCodes : List (String × String) :=
  [("black", "0"), ("dark_blue", "1"), ("dark_green", "2"), ("dark_aqua", "3"),
   ("dark_red", "4"), ("dark_purple", "5"), ("gold", "6"), ("gray", "7"),
   ("dark_gray", "8"), ("blue", "9"), ("green", "a"), ("aqua", "b"),
   ("red", "c"), ("light_purple", "d"), ("yellow", "e"), ("white", "f")]

/-- The properties the `colorCodes` object literal inherits from
`Object.prototype`, paired with the string each inherited value interpolates
to in V8 (the Cloudflare-workerd runtime this worker targets). The JS lookup
`colorCodes[colorName]` traverses the prototype chain, so these names hit a
truthy non-string value — a built-in method, or `Object.prototype` itself for
the `__proto__` accessor — the `|| 'f'` fallback does not fire, and the
template `§${...}` in `extractText` stringifies the value: native functions
print as `function name() { [native code] }` and `Object.prototype` as
`[object Object]`. -/
def objectPrototypeProps : List (String × String) :=
  [("__proto__", "[object Object]"),
   ("constructor", "function Object() { [native code] }"),
   ("hasOwnProperty", "function hasOwnProperty() { [native code] }"),
   ("isPrototypeOf", "function isPrototypeOf() { [native code] }"),
   ("propertyIsEnumerable", "function propertyIsEnumerable() { [native code] }"),
   ("toLocaleString", "function toLocaleString() { [native code] }"),
   ("toString", "function toString() { [native code] }"),
   ("valueOf", "function valueOf() { [native code] }"),
   ("__defineGetter__", "function __defineGetter__() { [native code] }"),
   ("__defineSetter__", "function __defineSetter__() { [native code] }"),
   ("__lookupGetter__", "function __lookupGetter__() { [native code] }"),
   ("__lookupSetter__", "function __lookupSetter__() { [native code] }")]

/-- `getColorCode` (src/index.js:87-95): `colorCodes[colorName] || 'f'`. The
property lookup checks own properties first, then the prototype chain
(`objectPrototypeProps` above); only a complete miss yields `undefined` and
falls back to `'f'` (every own value is a truthy digit string, every inherited
value truthy too). The sole call site interpolates the result into a template,
so the inherited values are modelled here directly by their interpolated
string forms. -/
def getColorCode (colorName : String) : String :=
  match colorCodes.find? (fun p => p.1 == colorName) with
  | some p => p.2
  | none =>
    match objectPrototypeProps.find? (fun p => p.1 == colorName) with
    | some p => p.2
    | none => "f"

/-- The `prevHasFormatting` test (src/index.js:68-69). On a plain string,
`prevItem.color` is `undefined` but `prevItem.bold` boxes the primitive and
finds the inherited legacy `String.prototype.bold` method — a truthy function
— so the disjunction is true for every string sibling. Note src/index.js:69
reads `prevItem.underline`, a property nothing in the repository ever sets
(the render flag at src/index.js:54 is spelled `underlined`), so that
disjunct is `undefined`/falsy for every component and contributes nothing. -/
def prevHasFormatting : ChatComponent → Bool
  | .str _ => true
  | .node color bold italic _underlined strikethrough obfuscated _ _ =>
    truthyStr color || bold || italic || strikethrough || obfuscated

mutual

/-- `extractText` (src/index.js:42-81): formatting-code prefixes in the fixed
order color, bold, italic, underlined, strikethrough, obfuscated, then the
literal text, then the `extra` children. Appending the `text` field is guarded
by truthiness in the source; appending the empty string is the same. -/
def extractText : ChatComponent → String
  | .str s => s
  | .node color bold italic underlined strikethrough obfuscated text extra =>
    let t := if truthyStr color then "§" ++ getColorCode (color.getD "") else ""
    let t := t ++ (if bold then "§l" else "")
    let t := t ++ (if italic then "§o" else "")
    let t := t ++ (if underlined then "§n" else "")
    let t := t ++ (if strikethrough then "§m" else "")
    let t := t ++ (if obfuscated then "§k" else "")
    let t := t ++ text.getD ""
    match extra with
    | none => t
    | some items => t ++ extractExtra items

/-- The `for` loop over `obj.extra` (src/index.js:62-78), first entry. -/
def extractExtra : List ChatComponent → String
  | [] => ""
  | item :: rest => extractText item ++ extractExtraRest item rest

/-- The `for` loop over `obj.extra` for entries with `i > 0`: a reset code is
emitted when the previous entry has formatting (src/index.js:66-74). -/
def extractExtraRest : ChatComponent → List ChatComponent → String
  | _, [] => ""
  | prev, item :: rest =>
    (if prevHasFormatting prev then "§r" else "") ++ extractText item ++ extractExtraRest item rest

end

/-- The character class of the regex `/§[0-9a-fklmnor]/gi` (the `i` flag also
matches the uppercase letters). -/
def isFormatCode (c : Char) : Bool :=
  ['k', 'l', 'm', 'n', 'o', 'r', 'K', 'L', 'M', 'N', 'O', 'R',
   'a', 'b', 'c', 'd', 'e', 'f', 'A', 'B', 'C', 'D', 'E', 'F',
   '9', '8', '7', '6', '5', '4', '3', '2', '1', '0'].contains c

/-- Left-to-right non-overlapping replacement performed by
`text.replace(/§[0-9a-fklmnor]/gi, '')`. -/
def removeColorCodesAux : List Char → List Char
  | [] => []
  | '§' :: c :: rest =>
    if isFormatCode c then removeColorCodesAux rest
    else '§' :: removeColorCodesAux (c :: rest)
  | c :: rest => c :: removeColorCodesAux rest

/-- `removeColorCodes` (src/index.js:83-85). -/
def removeColorCodes (text : String) : String :=
  ⟨removeColorCodesAux text.data⟩

/-- Does `pat` occur as a contiguous run starting at some position of `l`? -/
def containsRun (pat : List Char) : List Char → Bool
  | [] => pat.isEmpty
  | c :: rest => pat.isPrefixOf (c :: rest) || containsRun pat rest

/-- JS `message.includes(pat)`. -/
def jsIncludes (message pat : String) : Bool :=
  containsRun pat.data message.data

/-- The error mapping of the route handler's catch block (src/index.js:246-280),
as a function of `err.message`: the `(code, message)` pair of the failure
response. The initial `unknown_error` value is overwritten on every path of
the if/else chain, whose final `else` is the `offline` catch-all. -/
def classifyError (message : String) : String × String :=
  if message = "timeout" then
    ("timeout", "Connection to server timed out")
  else if jsIncludes message "getaddrinfo ENOTFOUND" || jsIncludes message "ENOTFOUND" then
    ("invalid_domain", "The domain name could not be resolved")
  else if jsIncludes message "ECONNREFUSED" then
    ("connection_refused", "Server refused the connection")
  else
    ("offline", "Server appears to be offline or unreachable")

/-! ### Small bit-arithmetic facts -/

theorem land127_eq_mod (b : Nat) : b &&& 127 = b % 128 := by
  have h := Nat.and_pow_two_sub_one_eq_mod b 7
  norm_num at h
  exact h

theorem land128_eq_zero {b : Nat} (h : b < 128) : b &&& 128 = 0 := by
  have h2 : b &&& 2 ^ 7 = (b.testBit 7).toNat * 2 ^ 7 := Nat.and_two_pow b 7
  rw [Nat.testBit_lt_two_pow (by norm_num [h])] at h2
  simpa using h2

theorem land128_ne_zero {b : Nat} (h1 : 128 ≤ b) (h2 : b < 256) : b &&& 128 ≠ 0 := by
  have h3 : b &&& 2 ^ 7 = (b.testBit 7).toNat * 2 ^ 7 := Nat.and_two_pow b 7
  have h4 : b.testBit 7 = true := by
    rw [Nat.testBit_to_div_mod]
    simp only [decide_eq_true_eq]
    omega
  rw [h4] at h3
  simp at h3
  omega

theorem toInt32_of_lt {n : Nat} (h : n < 2 ^ 31) : toInt32 n = n := by
  unfold toInt32
  have h32 : n % 2 ^ 32 = n := Nat.mod_eq_of_lt (by omega)
  rw [h32, if_pos h]
  omega

/-! ### Structure of `createVarIntAux` output -/

theorem createVarIntAux_length_pos (v : Nat) : 1 ≤ (createVarIntAux v).length := by
  rw [createVarIntAux]
  split <;> simp

theorem createVarIntAux_ne_nil (v : Nat) : createVarIntAux v ≠ [] := by
  have := createVarIntAux_length_pos v
  intro h
  rw [h] at this
  simp at this

theorem createVarIntAux_length_le (k : Nat) :
    ∀ v : Nat, 1 ≤ k → v < 2 ^ (7 * k) → (createVarIntAux v).length ≤ k := by
  induction k with
  | zero => omega
  | succ k ih =>
    intro v _ hv
    rw [createVarIntAux]
    split
    · simp
    · rename_i hge
      simp only [List.length_cons]
      have hk : 1 ≤ k := by
        by_contra hk0
        have : k = 0 := by omega
        subst this
        norm_num at hv
        omega
      have hdiv : v / 128 < 2 ^ (7 * k) := by
        have : v < 2 ^ (7 * k) * 128 := by
          have : 7 * (k + 1) = 7 * k + 7 := by ring
          rw [this, pow_add] at hv
          norm_num at hv
          omega
        omega
      have := ih (v / 128) hk hdiv
      omega

theorem createVarIntAux_length_le_five {v : Nat} (h : v < 2 ^ 32) :
    (createVarIntAux v).length ≤ 5 :=
  createVarIntAux_length_le 5 v (by norm_num) (by norm_num; omega)

theorem createVarIntAux_cont (v : Nat) :
    ∀ i : Nat, i + 1 < (createVarIntAux v).length →
      (createVarIntAux v).getD i 0 &&& 128 ≠ 0 := by
  induction v using createVarIntAux.induct with
  | case1 v h =>
    rw [createVarIntAux, dif_pos h]
    intro i hi
    simp at hi
  | case2 v h ih =>
    rw [createVarIntAux, dif_neg h]
    intro i hi
    match i with
    | 0 =>
      simp only [List.getD_cons_zero]
      exact land128_ne_zero (by omega) (by omega)
    | j + 1 =>
      simp only [List.getD_cons_succ]
      exact ih j (by simpa using hi)

theorem createVarIntAux_last (v : Nat) :
    (createVarIntAux v).getD ((createVarIntAux v).length - 1) 0 &&& 128 = 0 := by
  induction v using createVarIntAux.induct with
  | case1 v h =>
    rw [createVarIntAux, dif_pos h]
    simpa using land128_eq_zero h
  | case2 v h ih =>
    rw [createVarIntAux, dif_neg h]
    have hpos := createVarIntAux_length_pos (v / 128)
    simp only [List.length_cons]
    have hlen : (createVarIntAux (v / 128)).length + 1 - 1 =
        ((createVarIntAux (v / 128)).length - 1) + 1 := by omega
    rw [hlen, List.getD_cons_succ]
    exact ih

theorem createVarInt_natCast (v : Nat) (h : v < 2 ^ 32) :
    createVarInt v = createVarIntAux v := by
  unfold createVarInt
  congr 1
  have h1 : ((v : Int) % (2 ^ 32 : Int)) = (v : Int) := by
    apply Int.emod_eq_of_lt (by positivity)
    exact_mod_cast h
  rw [h1]
  simp


theorem readVarIntAux_encode (v : Nat) :
    ∀ (pre suf : List Nat) (size value : Nat),
      size + (createVarIntAux v).length ≤ 5 →
      value < 2 ^ (size * 7) →
      value + v * 2 ^ (size * 7) < 2 ^ 31 →
      readVarIntAux (pre ++ createVarIntAux v ++ suf) pre.length size value
        = .ok ((value + v * 2 ^ (size * 7) : Nat) : Int)
              (pre.length + (createVarIntAux v).length) := by
  induction v using createVarIntAux.induct with
  | case1 v hlt =>
    intro pre suf size value hlen hval hbound
    have henc : createVarIntAux v = [v] := by rw [createVarIntAux, dif_pos hlt]
    rw [henc] at hlen ⊢
    simp only [List.length_singleton] at hlen
    have hbyte : jsByte (pre ++ [v] ++ suf) pre.length = v := by
      unfold jsByte
      rw [List.append_assoc, List.getD_append_right pre ([v] ++ suf) 0 pre.length le_rfl]
      simp
    rw [readVarIntAux]
    rw [hbyte, dif_neg (by omega : ¬ size + 1 > 5)]
    rw [if_neg (by simp [land128_eq_zero hlt])]
    have hmod32 : size * 7 % 32 = size * 7 := Nat.mod_eq_of_lt (by omega)
    have hland : v &&& 127 = v := by rw [land127_eq_mod]; omega
    have hshift : (v <<< (size * 7)) = v * 2 ^ (size * 7) := Nat.shiftLeft_eq v (size * 7)
    have hsmall : v * 2 ^ (size * 7) < 2 ^ 32 := by omega
    have hor : value ||| v * 2 ^ (size * 7) = value + v * 2 ^ (size * 7) := by
      calc value ||| v * 2 ^ (size * 7) = 2 ^ (size * 7) * v ||| value := by
            rw [Nat.or_comm, Nat.mul_comm]
        _ = 2 ^ (size * 7) * v + value := (Nat.mul_add_lt_is_or hval v).symm
        _ = value + v * 2 ^ (size * 7) := by ring
    rw [hmod32, hland, hshift, Nat.mod_eq_of_lt hsmall, hor, toInt32_of_lt hbound]
    simp
  | case2 v hge ih =>
    intro pre suf size value hlen hval hbound
    have henc : createVarIntAux v = (v % 128 + 128) :: createVarIntAux (v / 128) := by
      rw [createVarIntAux, dif_neg hge]
    rw [henc] at hlen ⊢
    set b := v % 128 + 128 with hbdef
    set enc2 := createVarIntAux (v / 128) with henc2
    have hlen2 : 1 ≤ enc2.length := createVarIntAux_length_pos _
    simp only [List.length_cons] at hlen
    have hbyte : jsByte (pre ++ (b :: enc2) ++ suf) pre.length = b := by
      unfold jsByte
      rw [List.append_assoc, List.getD_append_right pre ((b :: enc2) ++ suf) 0 pre.length le_rfl]
      simp
    rw [readVarIntAux]
    rw [hbyte, dif_neg (by omega : ¬ size + 1 > 5)]
    rw [if_pos (land128_ne_zero (by omega) (by omega))]
    have hmod32 : size * 7 % 32 = size * 7 := Nat.mod_eq_of_lt (by omega)
    have hland : b &&& 127 = v % 128 := by rw [land127_eq_mod]; omega
    have hshift : ((v % 128) <<< (size * 7)) = (v % 128) * 2 ^ (size * 7) :=
      Nat.shiftLeft_eq _ _
    have hP1 : (1 : Nat) ≤ 2 ^ (size * 7) := Nat.one_le_two_pow
    have hPle : (2 : Nat) ^ (size * 7) ≤ 2 ^ 21 := Nat.pow_le_pow_right (by norm_num) (by omega)
    have hsmall : (v % 128) * 2 ^ (size * 7) < 2 ^ 32 := by
      have : (v % 128) * 2 ^ (size * 7) ≤ 127 * 2 ^ 21 :=
        Nat.mul_le_mul (by omega) hPle
      omega
    have hor : value ||| (v % 128) * 2 ^ (size * 7) = value + (v % 128) * 2 ^ (size * 7) := by
      calc value ||| (v % 128) * 2 ^ (size * 7) = 2 ^ (size * 7) * (v % 128) ||| value := by
            rw [Nat.or_comm, Nat.mul_comm]
        _ = 2 ^ (size * 7) * (v % 128) + value := (Nat.mul_add_lt_is_or hval _).symm
        _ = value + (v % 128) * 2 ^ (size * 7) := by ring
    rw [hmod32, hland, hshift, Nat.mod_eq_of_lt hsmall, hor]
    have hsplit : pre ++ (b :: enc2) ++ suf = (pre ++ [b]) ++ enc2 ++ suf := by simp
    have hplen : pre.length + 1 = (pre ++ [b]).length := by simp
    rw [hsplit, hplen]
    have hpow : (2 : Nat) ^ ((size + 1) * 7) = 2 ^ (size * 7) * 128 := by
      rw [show (size + 1) * 7 = size * 7 + 7 by ring, pow_add]
      norm_num
    have hmul : (v % 128) * 2 ^ (size * 7) + v / 128 * 2 ^ ((size + 1) * 7)
        = v * 2 ^ (size * 7) := by
      rw [hpow]
      have hd : 128 * (v / 128) + v % 128 = v := Nat.div_add_mod v 128
      calc (v % 128) * 2 ^ (size * 7) + v / 128 * (2 ^ (size * 7) * 128)
          = (128 * (v / 128) + v % 128) * 2 ^ (size * 7) := by ring
        _ = v * 2 ^ (size * 7) := by rw [hd]
    have hval2 : value + (v % 128) * 2 ^ (size * 7) < 2 ^ ((size + 1) * 7) := by
      rw [hpow]
      have : (v % 128) * 2 ^ (size * 7) ≤ 127 * 2 ^ (size * 7) :=
        Nat.mul_le_mul_right _ (by omega)
      omega
    have hbound2 : value + (v % 128) * 2 ^ (size * 7) + v / 128 * 2 ^ ((size + 1) * 7)
        < 2 ^ 31 := by omega
    rw [ih (pre ++ [b]) suf (size + 1) (value + (v % 128) * 2 ^ (size * 7))
      (by omega) hval2 hbound2]
    congr 1
    · congr 1
      omega
    · simp
      omega


theorem readVarInt_encode (v : Nat) (suf : List Nat) (hv : v < 2 ^ 31) :
    readVarInt (createVarIntAux v ++ suf) 0 = .ok (v : Int) (createVarIntAux v).length := by
  have hlen : (createVarIntAux v).length ≤ 5 := createVarIntAux_length_le_five (by omega)
  have h := readVarIntAux_encode v [] suf 0 0 (by simpa using hlen) (by norm_num)
    (by simpa using hv)
  simpa [readVarInt] using h

theorem createVarInt_arg_lt (id : Int) : ((id % (2 ^ 32 : Int)).toNat) < 2 ^ 32 := by
  have h1 : 0 ≤ id % (2 ^ 32 : Int) := Int.emod_nonneg id (by norm_num)
  have h2 : id % (2 ^ 32 : Int) < 2 ^ 32 := Int.emod_lt_of_pos id (by norm_num)
  omega

theorem createVarInt_length_le_five (id : Int) : (createVarInt id).length ≤ 5 :=
  createVarIntAux_length_le_five (createVarInt_arg_lt id)

theorem createVarInt_ne_nil (id : Int) : createVarInt id ≠ [] :=
  createVarIntAux_ne_nil _

/-- C1: for every non-negative integer `v` up to `2^31 - 1`, decoding the
encoding of `v` from offset 0 yields exactly `(v, n)` with `n` the byte length
of the encoding, and the encoding is 1 to 5 bytes with the continuation (high)
bit set on every byte except the last. -/
theorem varint_roundtrip (v : Nat) (hv : v ≤ 2 ^ 31 - 1) :
    readVarInt (createVarInt (v : Int)) 0 = .ok (v : Int) (createVarInt (v : Int)).length
    ∧ 1 ≤ (createVarInt (v : Int)).length
    ∧ (createVarInt (v : Int)).length ≤ 5
    ∧ (∀ i : Nat, i + 1 < (createVarInt (v : Int)).length →
        jsByte (createVarInt (v : Int)) i &&& 0x80 ≠ 0)
    ∧ jsByte (createVarInt (v : Int)) ((createVarInt (v : Int)).length - 1) &&& 0x80 = 0 := by
  have hv31 : v < 2 ^ 31 := by omega
  rw [createVarInt_natCast v (by omega)]
  refine ⟨?_, createVarIntAux_length_pos v, createVarIntAux_length_le_five (by omega),
    fun i hi => createVarIntAux_cont v i hi, createVarIntAux_last v⟩
  have h := readVarInt_encode v [] hv31
  simpa using h

/-- Witness for C1 at `v = 300`. -/
theorem varint_roundtrip_witness :
    (300 : Nat) ≤ 2 ^ 31 - 1
    ∧ (readVarInt (createVarInt ((300 : Nat) : Int)) 0
          = .ok ((300 : Nat) : Int) (createVarInt ((300 : Nat) : Int)).length
        ∧ 1 ≤ (createVarInt ((300 : Nat) : Int)).length
        ∧ (createVarInt ((300 : Nat) : Int)).length ≤ 5
        ∧ (∀ i : Nat, i + 1 < (createVarInt ((300 : Nat) : Int)).length →
            jsByte (createVarInt ((300 : Nat) : Int)) i &&& 0x80 ≠ 0)
        ∧ jsByte (createVarInt ((300 : Nat) : Int))
            ((createVarInt ((300 : Nat) : Int)).length - 1) &&& 0x80 = 0) :=
  ⟨by norm_num, varint_roundtrip 300 (by norm_num)⟩


/-- C3 counterexample: rendering the claim's component yields the string
"§cAB", not "§cA§rB" — the reset code is only emitted between `extra`
siblings (entry index > 0), never between the parent's own text and the first
`extra` entry. -/
theorem render_example_counterexample :
    extractText (.node (some "red") false false false false false (some "A")
        (some [.node none false false false false false (some "B") none])) = "§cAB"
    ∧ ("§cAB" : String) ≠ "§cA§rB" := by
  constructor
  · simp [extractText, extractExtra, extractExtraRest, prevHasFormatting, truthyStr,
          getColorCode, colorCodes]
    try rfl
  · decide

/-- C3 amended: rendering `{text:"A", color:"red", extra:[{text:"B"}]}`
produces exactly "§cAB" (no reset before the first `extra` entry), and
`removeColorCodes` of that output is exactly "AB". -/
theorem render_example :
    extractText (.node (some "red") false false false false false (some "A")
        (some [.node none false false false false false (some "B") none])) = "§cAB"
    ∧ removeColorCodes (extractText (.node (some "red") false false false false false
        (some "A") (some [.node none false false false false false (some "B") none]))) = "AB" := by
  have h : extractText (.node (some "red") false false false false false (some "A")
      (some [.node none false false false false false (some "B") none])) = "§cAB" := by
    simp [extractText, extractExtra, extractExtraRest, prevHasFormatting, truthyStr,
          getColorCode, colorCodes]
    try rfl
  refine ⟨h, ?_⟩
  rw [h]
  simp [removeColorCodes, removeColorCodesAux, isFormatCode]

/-- Decoding the five bytes `ff ff ff ff 0f` yields the signed int32 `-1`:
the JS `|` accumulator is signed, so the high bit makes the result negative. -/
theorem decode_ffffffff : readVarInt [0xff, 0xff, 0xff, 0xff, 0x0f] 0 = .ok (-1) 5 := by
  simp [readVarInt, readVarIntAux, jsByte, toInt32]
  decide

/-- C5 counterexample: decoding the 5-byte encoding of `-1` does not yield
the unsigned value 4294967295 — the accumulator of `readVarInt` is the signed
JS `|`, so the decode returns `-1`. -/
theorem varint_negative_one_counterexample :
    createVarInt (-1) = [0xff, 0xff, 0xff, 0xff, 0x0f]
    ∧ readVarInt [0xff, 0xff, 0xff, 0xff, 0x0f] 0 ≠ .ok (4294967295 : Int) 5 := by
  refine ⟨by simp [createVarInt, createVarIntAux], ?_⟩
  rw [decode_ffffffff]
  decide

/-- C5 amended: encoding `-1` produces the 5-byte VarInt encoding of the
32-bit unsigned value 0xFFFFFFFF (identical to encoding 4294967295), and
decoding those bytes yields `-1`, the signed 32-bit interpretation of the
bit pattern 0xFFFFFFFF, whose unsigned residue mod `2^32` is 4294967295. -/
theorem varint_negative_one :
    createVarInt (-1) = [0xff, 0xff, 0xff, 0xff, 0x0f]
    ∧ createVarInt (-1) = createVarInt (4294967295 : Int)
    ∧ readVarInt (createVarInt (-1)) 0 = .ok (-1) 5
    ∧ (-1 : Int) % 2 ^ 32 = 4294967295 := by
  have h : createVarInt (-1) = [0xff, 0xff, 0xff, 0xff, 0x0f] := by
    simp [createVarInt, createVarIntAux]
  exact ⟨h, by norm_num [createVarInt], by rw [h]; exact decode_ffffffff, by decide⟩

/-- C7: evaluation at the failing input. A previous sibling whose only set
flag is `underlined` does not trigger the reset code: src/index.js:69 checks
`prevItem.underline` (a property never set anywhere; the render flag at
src/index.js:54 is `underlined`), so the output is "§nAB", not the "§nA§rB"
the claim (and spec §4.4) requires. -/
theorem underline_typo_no_reset :
    extractText (.node none false false false false false none
      (some [.node none false false true false false (some "A") none,
             .node none false false false false false (some "B") none])) = "§nAB"
    ∧ ("§nAB" : String) ≠ "§nA§rB" := by
  constructor
  · simp [extractText, extractExtra, extractExtraRest, prevHasFormatting, truthyStr]
    try rfl
  · decide

/-- C8: the failure code is always one of `timeout`, `invalid_domain`,
`connection_refused`, `offline`, assigned in exactly the source's priority
order: message `"timeout"` first, then ENOTFOUND, then ECONNREFUSED,
then the `offline` catch-all. -/
theorem error_code_taxonomy (msg : String) :
    ((classifyError msg).1 = "timeout" ∨ (classifyError msg).1 = "invalid_domain"
      ∨ (classifyError msg).1 = "connection_refused" ∨ (classifyError msg).1 = "offline")
    ∧ (msg = "timeout" → (classifyError msg).1 = "timeout")
    ∧ (msg ≠ "timeout" →
        (jsIncludes msg "getaddrinfo ENOTFOUND" || jsIncludes msg "ENOTFOUND") = true →
        (classifyError msg).1 = "invalid_domain")
    ∧ (msg ≠ "timeout" →
        (jsIncludes msg "getaddrinfo ENOTFOUND" || jsIncludes msg "ENOTFOUND") = false →
        jsIncludes msg "ECONNREFUSED" = true →
        (classifyError msg).1 = "connection_refused")
    ∧ (msg ≠ "timeout" →
        (jsIncludes msg "getaddrinfo ENOTFOUND" || jsIncludes msg "ENOTFOUND") = false →
        jsIncludes msg "ECONNREFUSED" = false →
        (classifyError msg).1 = "offline") := by
  refine ⟨?_, ?_, ?_, ?_, ?_⟩
  · unfold classifyError
    split_ifs <;> simp
  · intro h1
    simp [classifyError, h1]
  · intro h1 h2
    simp [classifyError, h1, h2]
  · intro h1 h2 h3
    simp [classifyError, h1, h2, h3]
  · intro h1 h2 h3
    simp [classifyError, h1, h2, h3]

/-- Witness for C8 at a concrete ECONNREFUSED message. -/
theorem error_code_taxonomy_witness :
    ("connect ECONNREFUSED 127.0.0.1:25565" : String) ≠ "timeout"
    ∧ (classifyError "connect ECONNREFUSED 127.0.0.1:25565").1 = "connection_refused" :=
  ⟨by decide, (error_code_taxonomy "connect ECONNREFUSED 127.0.0.1:25565").2.2.2.1
    (by decide) (by decide) (by decide)⟩

/-- C10 counterexample: two components whose `color` is a string not among
the 16 recognized names and for which the renderer does not emit the white
code. With the empty string, JS `if (obj.color)` is false and no color code
at all is emitted. With "__proto__", the lookup `colorCodes[colorName]` hits
the inherited prototype accessor — a truthy value — so `|| 'f'` never fires
and the interpolation emits "§[object Object]" instead of "§f". -/
theorem unknown_color_counterexample :
    (extractText (.node (some "") false false false false false (some "A") none) = "A"
      ∧ ¬ ∃ rest : List Char,
          (extractText (.node (some "") false false false false false (some "A") none)).data
            = '§' :: 'f' :: rest)
    ∧ (extractText (.node (some "__proto__") false false false false false (some "A") none)
        = "§[object Object]A"
      ∧ ¬ ∃ rest : List Char,
          (extractText (.node (some "__proto__") false false false false false
            (some "A") none)).data = '§' :: 'f' :: rest) := by
  have h : extractText (.node (some "") false false false false false (some "A") none)
      = "A" := by
    simp [extractText, truthyStr]
    try decide
  have hp : extractText (.node (some "__proto__") false false false false false
      (some "A") none) = "§[object Object]A" := by
    simp [extractText, truthyStr, getColorCode, colorCodes, objectPrototypeProps]
    try rfl
  refine ⟨⟨h, ?_⟩, ⟨hp, ?_⟩⟩
  · rw [h]
    rintro ⟨rest, hr⟩
    simp at hr
  · rw [hp]
    rintro ⟨rest, hr⟩
    simp at hr

/-- C10 amended: for every component whose `color` is a non-empty string that
is neither one of the 16 recognized color names nor a property name the
`colorCodes` object inherits from `Object.prototype`, the renderer emits the
code for white (`§f`) rather than failing. -/
theorem unknown_color_white (c : String) (hc : c ≠ "")
    (hmem : ∀ p ∈ colorCodes, p.1 ≠ c)
    (hproto : ∀ p ∈ objectPrototypeProps, p.1 ≠ c) (b i u s o : Bool)
    (text : Option String) (extra : Option (List ChatComponent)) :
    ∃ rest : List Char,
      (extractText (.node (some c) b i u s o text extra)).data = '§' :: 'f' :: rest := by
  have hfind : colorCodes.find? (fun p => p.1 == c) = none := by
    rw [List.find?_eq_none]
    intro p hp
    simpa using hmem p hp
  have hfind2 : objectPrototypeProps.find? (fun p => p.1 == c) = none := by
    rw [List.find?_eq_none]
    intro p hp
    simpa using hproto p hp
  have hcode : getColorCode c = "f" := by rw [getColorCode, hfind, hfind2]
  have hempty : c.isEmpty = false := by
    rw [Bool.eq_false_iff]
    intro h
    exact hc ((String.isEmpty_iff c).mp h)
  have htruthy : truthyStr (some c) = true := by
    simp [truthyStr, hempty]
  cases extra with
  | none =>
    simp [extractText, htruthy, hcode, String.data_append]
    try exact ⟨_, rfl⟩
  | some items =>
    simp [extractText, htruthy, hcode, String.data_append]
    try exact ⟨_, rfl⟩

/-- Witness for C10 at the unknown color name "chartreuse". -/
theorem unknown_color_white_witness :
    ("chartreuse" : String) ≠ ""
    ∧ (∀ p ∈ colorCodes, p.1 ≠ "chartreuse")
    ∧ (∀ p ∈ objectPrototypeProps, p.1 ≠ "chartreuse")
    ∧ ∃ rest : List Char,
        (extractText (.node (some "chartreuse") false false false false false
          (some "A") none)).data = '§' :: 'f' :: rest :=
  ⟨by decide, by decide, by decide,
    unknown_color_white "chartreuse" (by decide) (by decide) (by decide)
      false false false false false (some "A") none⟩



theorem readVarIntAux_step (buffer : List Nat) (offset size value : Nat)
    (h5 : size + 1 ≤ 5) (hcont : jsByte buffer offset &&& 0x80 ≠ 0) :
    readVarIntAux buffer offset size value
      = readVarIntAux buffer (offset + 1) (size + 1)
          (value ||| ((jsByte buffer offset &&& 0x7f) <<< (size * 7 % 32) % 2 ^ 32)) := by
  conv_lhs => rw [readVarIntAux]
  rw [dif_neg (by omega : ¬ size + 1 > 5), if_pos hcont]

theorem readVarIntAux_stop (buffer : List Nat) (offset value : Nat) :
    readVarIntAux buffer offset 5 value = .err "VarInt is too big" := by
  rw [readVarIntAux]
  rw [dif_pos (by omega : 5 + 1 > 5)]

/-- A successful decode consumes at most 5 bytes: whenever the loop returns
`ok`, the final offset is within 5 of the starting offset. -/
theorem readVarIntAux_ok_bound (buffer : List Nat) (offset size value : Nat) :
    ∀ (v : Int) (endOffset : Nat),
      readVarIntAux buffer offset size value = .ok v endOffset →
        endOffset + size ≤ offset + 5 := by
  induction offset, size, value using readVarIntAux.induct buffer with
  | case1 offset size value h =>
    intro v endOffset heq
    rw [readVarIntAux, dif_pos h] at heq
    exact absurd heq (by simp)
  | case2 offset size value byte value2 h hcont ih =>
    intro v endOffset heq
    rw [readVarIntAux, dif_neg h, if_pos hcont] at heq
    have := ih v endOffset heq
    omega
  | case3 offset size value byte h hcont =>
    intro v endOffset heq
    rw [readVarIntAux, dif_neg h, if_neg hcont] at heq
    have : endOffset = offset + 1 := by
      cases heq
      rfl
    omega




/-- C6 amended: on every byte sequence whose first 6 bytes all have the
continuation bit set, decoding from offset 0 throws the error whose message
is "VarInt is too big" (the source's exact text, src/index.js:36), and
decoding never succeeds after consuming more than 5 bytes. -/
theorem varint_too_big :
    (∀ buffer : List Nat, (∀ i, i < 6 → jsByte buffer i &&& 0x80 ≠ 0) →
        readVarInt buffer 0 = .err "VarInt is too big")
    ∧ (∀ (buffer : List Nat) (offset : Nat) (v : Int) (endOffset : Nat),
        readVarInt buffer offset = .ok v endOffset → endOffset ≤ offset + 5) := by
  constructor
  · intro buffer h
    rw [readVarInt]
    rw [readVarIntAux_step _ _ _ _ (by omega) (h 0 (by omega))]
    rw [readVarIntAux_step _ _ _ _ (by omega) (by simpa using h 1 (by omega))]
    rw [readVarIntAux_step _ _ _ _ (by omega) (by simpa using h 2 (by omega))]
    rw [readVarIntAux_step _ _ _ _ (by omega) (by simpa using h 3 (by omega))]
    rw [readVarIntAux_step _ _ _ _ (by omega) (by simpa using h 4 (by omega))]
    show readVarIntAux buffer 5 5 _ = _
    exact readVarIntAux_stop _ _ _
  · intro buffer offset v endOffset heq
    have := readVarIntAux_ok_bound buffer offset 0 0 v endOffset heq
    omega



/-- C6 counterexample: the thrown error's message is "VarInt is too big"
(src/index.js:36), not the "VarInt too big" the claim states. -/
theorem varint_too_big_counterexample :
    readVarInt [128, 128, 128, 128, 128, 128] 0 = .err "VarInt is too big"
    ∧ ("VarInt is too big" : String) ≠ "VarInt too big" := by
  constructor
  · rw [readVarInt]
    rw [readVarIntAux_step _ _ _ _ (by omega) (by decide)]
    rw [readVarIntAux_step _ _ _ _ (by omega) (by decide)]
    rw [readVarIntAux_step _ _ _ _ (by omega) (by decide)]
    rw [readVarIntAux_step _ _ _ _ (by omega) (by decide)]
    rw [readVarIntAux_step _ _ _ _ (by omega) (by decide)]
    show readVarIntAux _ 5 5 _ = _
    exact readVarIntAux_stop _ _ _
  · decide

/-- Witness for C6: the all-continuation input for the first conjunct, and a
one-byte decode for the consumption bound. -/
theorem varint_too_big_witness :
    (∀ i, i < 6 → jsByte [128, 128, 128, 128, 128, 128] i &&& 0x80 ≠ 0)
    ∧ readVarInt [128, 128, 128, 128, 128, 128] 0 = .err "VarInt is too big"
    ∧ readVarInt [0] 0 = .ok 0 1
    ∧ (1 : Nat) ≤ 0 + 5 := by
  have hone : readVarInt [0] 0 = .ok 0 1 := by
    simp [readVarInt, readVarIntAux, jsByte, toInt32]
  exact ⟨by decide, varint_too_big.1 _ (by decide), hone,
    varint_too_big.2 [0] 0 0 1 hone⟩


theorem readVarIntAux_at_end (buffer : List Nat) (offset size value : Nat)
    (hoff : buffer.length ≤ offset) (hsize : size ≤ 4) (hval : value < 2 ^ (size * 7)) :
    readVarIntAux buffer offset size value = .ok (value : Int) (offset + 1) := by
  have hbyte : jsByte buffer offset = 0 := List.getD_eq_default _ _ hoff
  have hv31 : value < 2 ^ 31 := by
    have h28 : (2 : Nat) ^ (size * 7) ≤ 2 ^ 28 := Nat.pow_le_pow_right (by norm_num) (by omega)
    have h31 : (2 : Nat) ^ 28 ≤ 2 ^ 31 := by norm_num
    omega
  rw [readVarIntAux, hbyte, dif_neg (by omega : ¬ size + 1 > 5), if_neg (by simp)]
  simp only [Nat.zero_and, Nat.zero_shiftLeft, Nat.zero_mod, Nat.or_zero]
  rw [toInt32_of_lt hv31]

theorem readVarIntAux_truncated (k : Nat) :
    ∀ (buffer : List Nat) (offset size value : Nat),
      buffer.length ≤ offset + k →
      offset ≤ buffer.length →
      size + k ≤ 4 →
      value < 2 ^ (size * 7) →
      (∀ i : Nat, offset ≤ i → i < buffer.length → jsByte buffer i &&& 128 ≠ 0) →
      ∃ val : Nat, val < 2 ^ 31 ∧
        readVarIntAux buffer offset size value = .ok (val : Int) (buffer.length + 1) := by
  induction k with
  | zero =>
    intro buffer offset size value h1 h2 h3 hval hcont
    have hoff : offset = buffer.length := by omega
    refine ⟨value, ?_, ?_⟩
    · have h28 : (2 : Nat) ^ (size * 7) ≤ 2 ^ 28 := Nat.pow_le_pow_right (by norm_num) (by omega)
      have h31 : (2 : Nat) ^ 28 ≤ 2 ^ 31 := by norm_num
      omega
    · rw [readVarIntAux_at_end buffer offset size value (by omega) (by omega) hval, hoff]
  | succ k ih =>
    intro buffer offset size value h1 h2 h3 hval hcont
    by_cases hoff : buffer.length ≤ offset
    · have hoffeq : offset = buffer.length := by omega
      refine ⟨value, ?_, ?_⟩
      · have h28 : (2 : Nat) ^ (size * 7) ≤ 2 ^ 28 := Nat.pow_le_pow_right (by norm_num) (by omega)
        have h31 : (2 : Nat) ^ 28 ≤ 2 ^ 31 := by norm_num
        omega
      · rw [readVarIntAux_at_end buffer offset size value (by omega) (by omega) hval, hoffeq]
    · push_neg at hoff
      have hbcont : jsByte buffer offset &&& 128 ≠ 0 := hcont offset (by omega) hoff
      rw [readVarIntAux_step buffer offset size value (by omega) hbcont]
      have hmod32 : size * 7 % 32 = size * 7 := Nat.mod_eq_of_lt (by omega)
      have hland : jsByte buffer offset &&& 127 = jsByte buffer offset % 128 :=
        land127_eq_mod _
      have hshift : (jsByte buffer offset % 128) <<< (size * 7)
          = (jsByte buffer offset % 128) * 2 ^ (size * 7) := Nat.shiftLeft_eq _ _
      have hPle : (2 : Nat) ^ (size * 7) ≤ 2 ^ 21 := Nat.pow_le_pow_right (by norm_num) (by omega)
      have hsmall : (jsByte buffer offset % 128) * 2 ^ (size * 7) < 2 ^ 32 := by
        have : (jsByte buffer offset % 128) * 2 ^ (size * 7) ≤ 127 * 2 ^ 21 :=
          Nat.mul_le_mul (by omega) hPle
        omega
      have hval2 : value ||| (jsByte buffer offset % 128) * 2 ^ (size * 7)
          < 2 ^ ((size + 1) * 7) := by
        apply Nat.or_lt_two_pow
        · exact lt_of_lt_of_le hval (Nat.pow_le_pow_right (by norm_num) (by omega))
        · have hpow : (2 : Nat) ^ ((size + 1) * 7) = 128 * 2 ^ (size * 7) := by
            rw [show (size + 1) * 7 = size * 7 + 7 by ring, pow_add]
            ring
          rw [hpow]
          have h2 : (jsByte buffer offset % 128) * 2 ^ (size * 7) < 128 * 2 ^ (size * 7) := by
            apply Nat.mul_lt_mul_of_lt_of_le (by omega) le_rfl
            positivity
          exact h2
      rw [hmod32, hland, hshift, Nat.mod_eq_of_lt hsmall]
      exact ih buffer (offset + 1) (size + 1)
        (value ||| (jsByte buffer offset % 128) * 2 ^ (size * 7))
        (by omega) (by omega) (by omega) hval2
        (fun i hi1 hi2 => hcont i (by omega) hi2)

theorem parseStep_incomplete_of_short (b : List Nat) (hlen : b.length ≤ 4)
    (hcont : ∀ i : Nat, i < b.length → jsByte b i &&& 128 ≠ 0) :
    parseStep b 0 = .incomplete := by
  obtain ⟨val, hval, heq⟩ := readVarIntAux_truncated b.length b 0 0 0 (by omega) (by omega)
    (by omega) (by norm_num) (fun i _ hi => hcont i hi)
  have heq2 : readVarInt b 0 = .ok (val : Int) (b.length + 1) := heq
  simp only [parseStep, heq2]
  rw [if_pos (show ((b.length : Nat) : Int) < (((b.length + 1 : Nat)) : Int) + (val : Int) by
    push_cast
    omega)]

theorem parseStep_incomplete_of_partial_body (L : Nat) (hL : L < 2 ^ 31)
    (c : List Nat) (hc : c.length < L) :
    parseStep (createVarIntAux L ++ c) 0 = .incomplete := by
  have heq := readVarInt_encode L c hL
  simp only [parseStep, heq]
  rw [if_pos (show (((createVarIntAux L ++ c).length : Nat) : Int)
      < (((createVarIntAux L).length : Nat) : Int) + (L : Int) by
    rw [List.length_append]
    push_cast
    omega)]

theorem createPacket_eq (id : Int) (data : List Nat) (hdata : data.length ≤ 2 ^ 30) :
    createPacket id data
      = createVarIntAux ((createVarInt id).length + data.length)
        ++ (createVarInt id ++ data) := by
  have h5 : (createVarInt id).length ≤ 5 := createVarInt_length_le_five id
  simp only [createPacket]
  have hcast : ((createVarInt id).length + (data.length : Int))
      = (((createVarInt id).length + data.length : Nat) : Int) := by push_cast; ring
  rw [hcast, createVarInt_natCast _ (by omega), List.append_assoc]

/-- C2: every strict prefix of a well-formed packet — any packet built by
`createPacket`, whatever its id — makes the packet-scanning step report
`incomplete`: no packet, no protocol error, and no value escapes from bytes
past the buffer's end; the caller waits for more bytes and retries. -/
theorem packet_prefix_incomplete (id : Int) (data : List Nat)
    (hdata : data.length ≤ 2 ^ 30) (b rest : List Nat)
    (hsplit : createPacket id data = b ++ rest) (hrest : rest ≠ []) :
    parseStep b 0 = .incomplete := by
  have h5 : (createVarInt id).length ≤ 5 := createVarInt_length_le_five id
  have hne : createVarInt id ≠ [] := createVarInt_ne_nil id
  have hpos : 1 ≤ (createVarInt id).length := List.length_pos.mpr hne
  set L : Nat := (createVarInt id).length + data.length with hLdef
  have hL31 : L < 2 ^ 31 := by omega
  have hLpos : 1 ≤ L := by omega
  have hslen : (createVarInt id ++ data).length = L := by
    rw [List.length_append]
  rw [createPacket_eq id data hdata] at hsplit
  have henclen : (createVarIntAux L).length ≤ 5 :=
    createVarIntAux_length_le_five (by omega)
  rcases List.append_eq_append_iff.mp hsplit.symm with ⟨a, ha1, ha2⟩ | ⟨c, hc1, hc2⟩
  · -- ha1 : createVarIntAux L = b ++ a, b is a prefix of the length VarInt
    rcases List.eq_nil_or_concat a with rfl | _
    · -- a = []: b is the whole length VarInt, none of the body is present
      have hb : b = createVarIntAux L ++ [] := by simp [ha1]
      rw [hb]
      exact parseStep_incomplete_of_partial_body L hL31 [] (by simpa using hLpos)
    · have hane : a ≠ [] := by
        rename_i hconcat
        obtain ⟨ys, y, rfl⟩ := hconcat
        simp
      have hlena : 1 ≤ a.length := List.length_pos.mpr hane
      have hlen : (createVarIntAux L).length = b.length + a.length := by
        rw [ha1, List.length_append]
      apply parseStep_incomplete_of_short b (by omega)
      intro i hi
      have hbyte : jsByte b i = jsByte (createVarIntAux L) i := by
        unfold jsByte
        rw [ha1, List.getD_append _ _ _ _ hi]
      rw [hbyte]
      exact createVarIntAux_cont L i (by omega)
  · -- hc1 : b = createVarIntAux L ++ c, the body is only partially present
    have hclen : c.length < L := by
      have := congrArg List.length hc2
      rw [hslen, List.length_append] at this
      have hrlen : 1 ≤ rest.length := List.length_pos.mpr hrest
      omega
    rw [hc1]
    exact parseStep_incomplete_of_partial_body L hL31 c hclen

/-- Witness for C2: the packet `createPacket 0 [2, 65, 66]`, truncated three
bytes in (inside the declared body). -/
theorem packet_prefix_incomplete_witness :
    ([2, 65, 66] : List Nat).length ≤ 2 ^ 30
    ∧ createPacket 0 [2, 65, 66] = [4, 0, 2] ++ [65, 66]
    ∧ ([65, 66] : List Nat) ≠ []
    ∧ parseStep [4, 0, 2] 0 = .incomplete := by
  have hp : createPacket 0 [2, 65, 66] = [4, 0, 2] ++ [65, 66] := by
    simp [createPacket, createVarInt, createVarIntAux]
  exact ⟨by norm_num, hp, by simp,
    packet_prefix_incomplete 0 [2, 65, 66] (by norm_num) [4, 0, 2] [65, 66] hp (by simp)⟩

/-- C9: a complete framed packet whose id is neither 0x00 nor 0x01 is skipped
without error, and the scan continues exactly at the end of that packet's
frame (length prefix, id, and payload all consumed), whatever bytes follow. -/
theorem unknown_packet_skipped (id : Nat) (hid2 : 2 ≤ id) (hid31 : id < 2 ^ 31)
    (data extra : List Nat) (hdata : data.length ≤ 2 ^ 30) :
    parseStep (createPacket (id : Int) data ++ extra) 0
      = .skip (((createPacket (id : Int) data).length : Int)) := by
  have hidcast : createVarInt (id : Int) = createVarIntAux id :=
    createVarInt_natCast id (by omega)
  have hidlen5 : (createVarIntAux id).length ≤ 5 := createVarIntAux_length_le_five (by omega)
  have hlencast : (createVarInt (id : Int)).length = (createVarIntAux id).length := by
    rw [hidcast]
  set L : Nat := (createVarIntAux id).length + data.length with hLdef
  have hL31 : L < 2 ^ 31 := by omega
  have hbuf : createPacket (id : Int) data ++ extra
      = createVarIntAux L ++ (createVarIntAux id ++ (data ++ extra)) := by
    rw [createPacket_eq _ _ hdata, List.append_assoc, hidcast, List.append_assoc, ← hLdef]
  have hplen : (createPacket (id : Int) data).length = (createVarIntAux L).length + L := by
    rw [createPacket_eq _ _ hdata, List.length_append, List.length_append, hidcast, ← hLdef]
  have heqL : readVarInt (createVarIntAux L ++ (createVarIntAux id ++ (data ++ extra))) 0
      = .ok (L : Int) (createVarIntAux L).length :=
    readVarInt_encode L _ hL31
  have heqId0 := readVarIntAux_encode id (createVarIntAux L) (data ++ extra) 0 0
    (by simpa using hidlen5) (by norm_num) (by simpa using hid31)
  have heqId : readVarInt (createVarIntAux L ++ (createVarIntAux id ++ (data ++ extra)))
      (createVarIntAux L).length
      = .ok (id : Int) ((createVarIntAux L).length + (createVarIntAux id).length) := by
    rw [readVarInt, ← List.append_assoc]
    simpa using heqId0
  rw [hbuf]
  simp only [parseStep, heqL, heqId]
  rw [if_neg (show ¬ (((createVarIntAux L ++ (createVarIntAux id ++ (data ++ extra))).length
      : Nat) : Int) < (((createVarIntAux L).length : Nat) : Int) + (L : Int) by
    simp only [List.length_append]
    push_cast
    omega)]
  rw [if_neg (show ¬ (id : Int) = 0 by omega), if_neg (show ¬ (id : Int) = 1 by omega)]
  rw [hplen]
  push_cast
  rfl

/-- Witness for C9: the packet with id 7 and a 3-byte payload, followed by two
stray bytes; the scan skips exactly the 5 framed bytes. -/
theorem unknown_packet_skipped_witness :
    (2 : Nat) ≤ 7 ∧ (7 : Nat) < 2 ^ 31 ∧ ([1, 2, 3] : List Nat).length ≤ 2 ^ 30
    ∧ parseStep (createPacket ((7 : Nat) : Int) [1, 2, 3] ++ [9, 9]) 0
        = .skip (((createPacket ((7 : Nat) : Int) [1, 2, 3]).length : Int)) :=
  ⟨by norm_num, by norm_num, by norm_num,
    unknown_packet_skipped 7 (by norm_num) (by norm_num) [1, 2, 3] [9, 9] (by norm_num)⟩

end MCStatus
